import Mathlib

/-!
Verification of the `graphs` repository (package `graphs`, file `graph.go`).

The Go code implements an undirected graph over vertices `0 .. n-1` with a
dual representation: a boolean adjacency matrix (canonical cell
`adjacencies[max][min]`), per-vertex adjacency lists (`edges`), a mirrored
weight matrix (`weights`), per-vertex degree counters and an edge counter.

Shallow embedding conventions:
  - Go slices become `List`; Go `int` becomes `Int`; Go `float64` weights are
    only ever stored and returned verbatim (never computed with), so they are
    embedded as `Rat`.
  - Go runtime panics (out-of-range slice indexing, `make` with a negative
    length) are modelled as `Except.error` with a `RuntimeErr` describing the
    panic.  The Go functions return bare values and have no error channel of
    their own, so every `Except.error` produced by this model corresponds to a
    crash of the Go program, not to a returned error value.
  - The `bufio.Scanner`/`strconv` collaborators used by `readFromFile` are
    modelled over the list of whitespace-separated tokens of the file.
-/

namespace Graphs

/-- Go runtime panics that the embedded code can raise: out-of-range slice
indexing and `make` with a negative length. -/
inductive RuntimeErr where
  | indexOutOfRange
  | negMakeLen
deriving DecidableEq

/-- Reading `xs[i]` on a Go slice: panics (error) for `i < 0` or `i ≥ len`. -/
def sliceGet {α : Type} (xs : List α) (i : Int) : Except RuntimeErr α :=
  if 0 ≤ i then
    match xs[i.toNat]? with
    | some a => Except.ok a
    | none => Except.error RuntimeErr.indexOutOfRange
  else Except.error RuntimeErr.indexOutOfRange

/-- Writing `xs[i] = a` on a Go slice: panics for `i < 0` or `i ≥ len`. -/
def sliceSet {α : Type} (xs : List α) (i : Int) (a : α) : Except RuntimeErr (List α) :=
  if 0 ≤ i ∧ i.toNat < xs.length then Except.ok (xs.set i.toNat a)
  else Except.error RuntimeErr.indexOutOfRange

/-- The Go statement `xs[i] = f(xs[i])` (e.g. `xs[i]++`). -/
def sliceModify {α : Type} (xs : List α) (i : Int) (f : α → α) : Except RuntimeErr (List α) :=
  (sliceGet xs i).bind fun a => sliceSet xs i (f a)

/-- The Go statement `m[i][j] = a` on a slice of slices: the row is indexed
first (bounds-checked), then the column assignment is bounds-checked. -/
def matSet {α : Type} (m : List (List α)) (i j : Int) (a : α) :
    Except RuntimeErr (List (List α)) :=
  (sliceGet m i).bind fun row =>
  (sliceSet row j a).bind fun rowSet =>
  sliceSet m i rowSet

/-- The struct `Undirected` of `graph.go`, fields in source order:
adjacency matrix, adjacency lists, weight matrix, degrees, vertex count and
edge count. -/
structure Undirected where
  adjacencies : List (List Bool)
  edges : List (List Int)
  weights : List (List Rat)
  degrees : List Int
  numVertices : Int
  numEdges : Int
deriving DecidableEq

/-- `func (g *Undirected) Clear()`: resets `numEdges` and reallocates all four
structures sized to `numVertices`.  Go `make` with a negative length panics. -/
def Clear (g : Undirected) : Except RuntimeErr Undirected :=
  if 0 ≤ g.numVertices then
    Except.ok
      { adjacencies := List.replicate g.numVertices.toNat (List.replicate g.numVertices.toNat false)
      , edges := List.replicate g.numVertices.toNat []
      , weights := List.replicate g.numVertices.toNat (List.replicate g.numVertices.toNat 0)
      , degrees := List.replicate g.numVertices.toNat 0
      , numVertices := g.numVertices
      , numEdges := 0 }
  else Except.error RuntimeErr.negMakeLen

/-- `func NewGraph(numVertices int) *Undirected`: zero-valued struct, sets
`numVertices`, calls `Clear`. -/
def NewGraph (numVertices : Int) : Except RuntimeErr Undirected :=
  Clear { adjacencies := [], edges := [], weights := [], degrees := []
        , numVertices := numVertices, numEdges := 0 }

/-- `func (g *Undirected) Degree(i int) int`: returns `g.degrees[i]`. -/
def Degree (g : Undirected) (i : Int) : Except RuntimeErr Int :=
  sliceGet g.degrees i

/-- `func (g *Undirected) IsConnected(vertex1, vertex2 int) bool`: reads the
canonical matrix cell `adjacencies[max][min]`. -/
def IsConnected (g : Undirected) (vertex1 vertex2 : Int) : Except RuntimeErr Bool :=
  if vertex1 > vertex2 then
    (sliceGet g.adjacencies vertex1).bind fun row => sliceGet row vertex2
  else
    (sliceGet g.adjacencies vertex2).bind fun row => sliceGet row vertex1

/-- `func (g *Undirected) AddEdgeWeight(vertex1, vertex2 int, weight float64)`:
guarded by `vertex1 != vertex2 && !g.IsConnected(vertex1, vertex2)` (Go `&&`
short-circuits, so equal vertices skip the `IsConnected` call); then
increments `numEdges` and both degrees, canonicalizes so the larger vertex is
the matrix row, sets the canonical adjacency cell, mirrors the weight, and
appends to both adjacency lists (in source order). -/
def AddEdgeWeight (g : Undirected) (vertex1 vertex2 : Int) (weight : Rat) :
    Except RuntimeErr Undirected :=
  if vertex1 = vertex2 then Except.ok g else
  (IsConnected g vertex1 vertex2).bind fun conn =>
  if conn then Except.ok g else
  (sliceModify g.degrees vertex1 (fun d => d + 1)).bind fun degrees1 =>
  (sliceModify degrees1 vertex2 (fun d => d + 1)).bind fun degrees2 =>
  let hi := if vertex1 < vertex2 then vertex2 else vertex1
  let lo := if vertex1 < vertex2 then vertex1 else vertex2
  (matSet g.adjacencies hi lo true).bind fun adjacencies1 =>
  (matSet g.weights hi lo weight).bind fun weights1 =>
  (matSet weights1 lo hi weight).bind fun weights2 =>
  (sliceGet g.edges hi).bind fun rowHi =>
  (sliceSet g.edges hi (rowHi ++ [lo])).bind fun edges1 =>
  (sliceGet edges1 lo).bind fun rowLo =>
  (sliceSet edges1 lo (rowLo ++ [hi])).bind fun edges2 =>
  Except.ok
    { adjacencies := adjacencies1
    , edges := edges2
    , weights := weights2
    , degrees := degrees2
    , numVertices := g.numVertices
    , numEdges := g.numEdges + 1 }

/-- `func (g *Undirected) AddEdge(vertex1, vertex2 int)`: sugar for
`AddEdgeWeight(vertex1, vertex2, 1)`. -/
def AddEdge (g : Undirected) (vertex1 vertex2 : Int) : Except RuntimeErr Undirected :=
  AddEdgeWeight g vertex1 vertex2 1

/-- `func (g *Undirected) Weight(vertex1, vertex2 int) float64`: checks
`g.adjacencies[vertex1][vertex2] || g.adjacencies[vertex2][vertex1]` (Go `||`
short-circuits) and returns `g.weights[vertex1][vertex2]` if connected, else
the literal `0`. -/
def Weight (g : Undirected) (vertex1 vertex2 : Int) : Except RuntimeErr Rat :=
  (sliceGet g.adjacencies vertex1).bind fun row1 =>
  (sliceGet row1 vertex2).bind fun cell12 =>
  if cell12 then
    (sliceGet g.weights vertex1).bind fun wrow => sliceGet wrow vertex2
  else
    (sliceGet g.adjacencies vertex2).bind fun row2 =>
    (sliceGet row2 vertex1).bind fun cell21 =>
    if cell21 then
      (sliceGet g.weights vertex1).bind fun wrow => sliceGet wrow vertex2
    else Except.ok 0

/-- `func (g *Undirected) Order() int`: returns `numVertices`. -/
def Order (g : Undirected) : Int :=
  g.numVertices

/-- `func (g *Undirected) Size() int`: returns `numEdges`. -/
def Size (g : Undirected) : Int :=
  g.numEdges

/-- `func (g *Undirected) GetEdges(vertex int) []int`: returns `g.edges[vertex]`. -/
def GetEdges (g : Undirected) (vertex : Int) : Except RuntimeErr (List Int) :=
  sliceGet g.edges vertex

/-- State of the `bufio.Scanner` with `bufio.ScanWords` used by
`readFromFile`: the remaining tokens and the current token (`Text()`).  After
`Scan()` fails at end of input the current token is the empty string. -/
structure Scanner where
  tokens : List String
  text : String
deriving DecidableEq

/-- `f.Scan()`: advances to the next whitespace-separated token; at end of
input `f.Text()` becomes `""`. -/
def scan (s : Scanner) : Scanner :=
  match s.tokens with
  | [] => { tokens := [], text := "" }
  | t :: ts => { tokens := ts, text := t }

/-- Decimal digit run accumulator used to model `strconv.Atoi`. -/
def parseDigits : List Char → Nat → Option Nat
  | [], acc => some acc
  | c :: cs, acc =>
      if c.isDigit then parseDigits cs (acc * 10 + (c.toNat - 48)) else none

/-- Modelled from the Go standard library `strconv.Atoi` on the inputs the
reader produces: an optional minus sign followed by decimal digits parses to
that integer with no error; anything else (in particular the empty string
produced after end of input) yields the value `0` together with an error,
which the reader merely prints. -/
def atoi (s : String) : Int × Bool :=
  match s.toList with
  | [] => (0, false)
  | '-' :: cs =>
      match cs, parseDigits cs 0 with
      | _ :: _, some m => (-(m : Int), true)
      | _, _ => (0, false)
  | cs =>
      match parseDigits cs 0 with
      | some m => ((m : Int), true)
      | none => (0, false)

/-- Loop state of `readFromFile`: the scanner, the graph under construction
and the loop variable `vertex1`. -/
structure ReadState where
  sc : Scanner
  g : Undirected
  vertex1 : Int
deriving DecidableEq

/-- Entry of `func (g *Undirected) readFromFile`: one `Scan`, `numVertices`
from `Atoi(f.Text())`, a `Clear` (which panics on a negative count), and the
loop variable initialized from the same text.  The file is supplied as its
list of whitespace-separated tokens. -/
def readInit (tokens : List String) : Except RuntimeErr ReadState :=
  let sc0 := scan { tokens := tokens, text := "" }
  let g0 : Undirected :=
    { adjacencies := [], edges := [], weights := [], degrees := []
    , numVertices := (atoi sc0.text).1, numEdges := 0 }
  (Clear g0).map fun g => { sc := sc0, g := g, vertex1 := (atoi sc0.text).1 }

/-- One iteration of the `for vertex1, _ := strconv.Atoi(f.Text()); vertex1 >= 0;`
loop of `readFromFile`: exit (`Sum.inl`) when the condition fails, otherwise
scan and parse the two vertices and call `AddEdge` when both are
non-negative. -/
def readStep (s : ReadState) : Except RuntimeErr (Sum Undirected ReadState) :=
  if s.vertex1 < 0 then Except.ok (Sum.inl s.g)
  else
    let sc1 := scan s.sc
    let v1 := (atoi sc1.text).1
    let sc2 := scan sc1
    let v2 := (atoi sc2.text).1
    if 0 ≤ v1 ∧ 0 ≤ v2 then
      (AddEdge s.g v1 v2).map fun g => Sum.inr { sc := sc2, g := g, vertex1 := v1 }
    else Except.ok (Sum.inr { sc := sc2, g := s.g, vertex1 := v1 })

/-- Fuel-indexed run of the `readFromFile` loop: `ok (some g)` means the loop
exited with final graph `g`, `ok none` means the loop is still running after
`fuel` iterations, and `error` is a Go runtime panic. -/
def readRun : Nat → ReadState → Except RuntimeErr (Option Undirected)
  | 0, _ => Except.ok none
  | fuel + 1, s =>
      match readStep s with
      | Except.error e => Except.error e
      | Except.ok (Sum.inl g) => Except.ok (some g)
      | Except.ok (Sum.inr s1) => readRun fuel s1

/-- Whole `readFromFile` on a token list, with fuel for the scanning loop. -/
def readFromFileFuel (tokens : List String) (fuel : Nat) :
    Except RuntimeErr (Option Undirected) :=
  (readInit tokens).bind fun s => readRun fuel s

/-- Sample graph: `NewGraph 2` followed by `AddEdge 0 1`, written out. -/
def gW : Undirected :=
  { adjacencies := [[false, false], [true, false]]
  , edges := [[1], [0]]
  , weights := [[0, 1], [1, 0]]
  , degrees := [1, 1]
  , numVertices := 2
  , numEdges := 1 }

/-- Loop state reached by `readFromFile` on the token stream `2 0 1` once the
stream is exhausted: the scanner is empty, the graph holds the single edge
`{0, 1}` and the loop variable is `0`. -/
def sStuck : ReadState :=
  { sc := { tokens := [], text := "" }, g := gW, vertex1 := 0 }

/-- Loop state of `readFromFile` on the token stream `2 0 1` right after the
initialization (vertex count consumed, graph cleared to two vertices). -/
def sReadInit : ReadState :=
  { sc := { tokens := ["0", "1"], text := "2" }
  , g := { adjacencies := [[false, false], [false, false]]
         , edges := [[], []]
         , weights := [[0, 0], [0, 0]]
         , degrees := [0, 0]
         , numVertices := 2
         , numEdges := 0 }
  , vertex1 := 2 }

/-- Loop state of `readFromFile` on the token stream `2 0 1` after the first
iteration (edge `{0, 1}` added, token stream exhausted). -/
def sRead1 : ReadState :=
  { sc := { tokens := [], text := "1" }, g := gW, vertex1 := 0 }

/-- Sum of `Degree(v)` over all vertices `v ∈ [0, Order())`, propagating a
panic of any `Degree` call (none occurs on a well-formed graph). -/
def degreeSum (g : Undirected) : Except RuntimeErr Int :=
  (List.range (Order g).toNat).foldl
    (fun acc (k : Nat) => acc.bind fun s => (Degree g (↑k : Int)).map fun d => s + d)
    (Except.ok 0)

/-- Mutating calls offered by the graph API (the structure is insert-only,
plus `Clear`). -/
inductive Op where
  | addEdge (u v : Int)
  | addEdgeWeight (u v : Int) (w : Rat)
  | clear
deriving DecidableEq

/-- Interpretation of one mutating call. -/
def applyOp (g : Undirected) : Op → Except RuntimeErr Undirected
  | Op.addEdge u v => AddEdge g u v
  | Op.addEdgeWeight u v w => AddEdgeWeight g u v w
  | Op.clear => Clear g

/-- Interpretation of a call sequence, stopping at the first panic. -/
def applyOps (g : Undirected) : List Op → Except RuntimeErr Undirected
  | [] => Except.ok g
  | op :: ops => (applyOp g op).bind fun g1 => applyOps g1 ops

/-- Whether an operation only uses vertices in `[0, n)`. -/
def opInRange (n : Int) : Op → Bool
  | Op.addEdge u v => decide (0 ≤ u ∧ u < n ∧ 0 ≤ v ∧ v < n)
  | Op.addEdgeWeight u v _ => decide (0 ≤ u ∧ u < n ∧ 0 ≤ v ∧ v < n)
  | Op.clear => true

/-- Graph states reachable from `NewGraph` by in-range mutating calls. -/
def ReachableIn (g : Undirected) : Prop :=
  ∃ n : Int, ∃ ops : List Op, 0 ≤ n ∧ ops.all (opInRange n) = true ∧
    (NewGraph n).bind (fun g0 => applyOps g0 ops) = Except.ok g

/-- Total read of a matrix cell with a default, for stating invariants. -/
def cellD {α : Type} (d : α) (m : List (List α)) (i j : Nat) : α :=
  ((m[i]?.getD [])[j]?).getD d

/-- Adjacency-matrix cell `adjacencies[i][j]` (false when out of range). -/
def adjCell (g : Undirected) (i j : Nat) : Bool :=
  cellD false g.adjacencies i j

/-- Weight-matrix cell `weights[i][j]` (0 when out of range). -/
def wtCell (g : Undirected) (i j : Nat) : Rat :=
  cellD 0 g.weights i j

/-- Adjacency list of vertex `i` ([] when out of range). -/
def edgeList (g : Undirected) (i : Nat) : List Int :=
  g.edges[i]?.getD []

/-- Degree counter of vertex `i` (0 when out of range). -/
def degOf (g : Undirected) (i : Nat) : Int :=
  g.degrees[i]?.getD 0

/-- Edge presence in canonical form: the cell indexed by the larger vertex
first, as stored by `AddEdgeWeight`. -/
def Adj (g : Undirected) (i j : Nat) : Bool :=
  adjCell g (max i j) (min i j)

/-- Representation invariant of `Undirected`, maintained by `NewGraph`,
`Clear` and in-range `AddEdgeWeight` calls: all four structures are sized to
`numVertices`; the matrix stores each edge exactly once, in the strictly
lower triangle; weights are mirrored; each adjacency list agrees with the
matrix, has in-range entries and no duplicates; each degree counter equals
the corresponding list length; and the edge counter is half the degree sum. -/
structure Inv (n : Int) (g : Undirected) : Prop where
  hn : g.numVertices = n
  hn0 : 0 ≤ n
  hdegLen : g.degrees.length = n.toNat
  hadjLen : g.adjacencies.length = n.toNat
  hadjRow : ∀ row ∈ g.adjacencies, row.length = n.toNat
  hedgLen : g.edges.length = n.toNat
  hwtLen : g.weights.length = n.toNat
  hwtRow : ∀ row ∈ g.weights, row.length = n.toNat
  hcanon : ∀ i j : Nat, adjCell g i j = true → j < i ∧ i < n.toNat
  hwsym : ∀ i j : Nat, i < n.toNat → j < n.toNat → wtCell g i j = wtCell g j i
  hmem : ∀ i j : Nat, i < n.toNat → j < n.toNat →
    (((j : Nat) : Int) ∈ edgeList g i ↔ Adj g i j = true)
  hrange : ∀ i : Nat, ∀ x ∈ edgeList g i, 0 ≤ x ∧ x < n
  hnodup : ∀ i : Nat, (edgeList g i).Nodup
  hdegCount : ∀ i : Nat, i < n.toNat → degOf g i = ((edgeList g i).length : Int)
  hsum : 2 * g.numEdges = g.degrees.sum

theorem ok_bind {α β : Type} (a : α) (f : α → Except RuntimeErr β) :
    (Except.ok a : Except RuntimeErr α).bind f = f a := rfl

theorem error_bind {α β : Type} (e : RuntimeErr) (f : α → Except RuntimeErr β) :
    (Except.error e : Except RuntimeErr α).bind f = Except.error e := rfl

theorem lt_of_getElem?_some {α : Type} {xs : List α} {i : Nat} {a : α}
    (h : xs[i]? = some a) : i < xs.length := by
  by_contra hlen
  rw [List.getElem?_eq_none (by omega)] at h
  exact Option.noConfusion h

theorem sliceGet_ok_of {α : Type} {xs : List α} {i : Int} {a : α}
    (h0 : 0 ≤ i) (h : xs[i.toNat]? = some a) : sliceGet xs i = Except.ok a := by
  simp [sliceGet, h0, h]

theorem sliceGet_err_neg {α : Type} {xs : List α} {i : Int} (h : i < 0) :
    sliceGet xs i = Except.error RuntimeErr.indexOutOfRange := by
  have h0 : ¬ (0 ≤ i) := by omega
  simp [sliceGet, h0]

theorem sliceGet_err_oob {α : Type} {xs : List α} {i : Int}
    (h0 : 0 ≤ i) (h : xs.length ≤ i.toNat) :
    sliceGet xs i = Except.error RuntimeErr.indexOutOfRange := by
  simp [sliceGet, h0, List.getElem?_eq_none h]

theorem sliceSet_ok {α : Type} {xs : List α} {i : Int} (a : α)
    (h0 : 0 ≤ i) (h : i.toNat < xs.length) :
    sliceSet xs i a = Except.ok (xs.set i.toNat a) := by
  simp [sliceSet, h0, h]

theorem sliceModify_ok {α : Type} {xs : List α} {i : Int} {a : α} (f : α → α)
    (h0 : 0 ≤ i) (h : xs[i.toNat]? = some a) :
    sliceModify xs i f = Except.ok (xs.set i.toNat (f a)) := by
  rw [sliceModify, sliceGet_ok_of h0 h, ok_bind, sliceSet_ok _ h0 (lt_of_getElem?_some h)]

theorem matSet_ok {α : Type} {m : List (List α)} {i j : Int} {row : List α} (a : α)
    (hi0 : 0 ≤ i) (hrow : m[i.toNat]? = some row)
    (hj0 : 0 ≤ j) (hj : j.toNat < row.length) :
    matSet m i j a = Except.ok (m.set i.toNat (row.set j.toNat a)) := by
  rw [matSet, sliceGet_ok_of hi0 hrow, ok_bind, sliceSet_ok _ hj0 hj, ok_bind,
    sliceSet_ok _ hi0 (lt_of_getElem?_some hrow)]

theorem getElem?_set_self {α : Type} (xs : List α) (i : Nat) (a : α) (h : i < xs.length) :
    (xs.set i a)[i]? = some a :=
  List.getElem?_set_eq_of_lt a h

theorem mem_set_cases {α : Type} {m : List α} {r : Nat} {v : α}
    (hr : r < m.length) : ∀ x ∈ m.set r v, x ∈ m ∨ x = v := by
  intro x hx
  obtain ⟨k, hk⟩ := List.mem_iff_getElem?.mp hx
  by_cases hkr : k = r
  · subst hkr
    rw [getElem?_set_self _ _ _ hr] at hk
    exact Or.inr (Option.some_injective _ hk).symm
  · rw [List.getElem?_set_ne (by omega)] at hk
    exact Or.inl (List.getElem?_mem hk)

theorem cellD_set_eq {α : Type} (d : α) {m : List (List α)} {r c : Nat} {row : List α} (a : α)
    (hrow : m[r]? = some row) (hc : c < row.length) :
    cellD d (m.set r (row.set c a)) r c = a := by
  rw [cellD, getElem?_set_self _ _ _ (lt_of_getElem?_some hrow)]
  simp [getElem?_set_self _ _ _ hc]

theorem cellD_set_ne {α : Type} (d : α) {m : List (List α)} {r c : Nat} {row : List α} (a : α)
    (hrow : m[r]? = some row) {i j : Nat} (hne : ¬(i = r ∧ j = c)) :
    cellD d (m.set r (row.set c a)) i j = cellD d m i j := by
  by_cases hir : i = r
  · subst hir
    have hjc : j ≠ c := fun h => hne ⟨rfl, h⟩
    rw [cellD, cellD, getElem?_set_self _ _ _ (lt_of_getElem?_some hrow), hrow]
    simp [List.getElem?_set_ne (by omega : c ≠ j)]
  · rw [cellD, cellD, List.getElem?_set_ne (by omega : r ≠ i)]

theorem sum_set_int : ∀ (xs : List Int) (i : Nat) (a : Int), i < xs.length →
    (xs.set i a).sum = xs.sum + a - (xs[i]?.getD 0)
  | x :: xs, 0, a, _ => by simp [List.sum_cons]; ring
  | x :: xs, i + 1, a, h => by
      have hi : i < xs.length := by simpa using h
      simp only [List.set_cons_succ, List.sum_cons, sum_set_int xs i a hi,
        List.getElem?_cons_succ]
      ring

theorem sliceGet_getD {α : Type} {row : List α} {v : Int} (d : α)
    (hv0 : 0 ≤ v) (hlen : v.toNat < row.length) :
    sliceGet row v = Except.ok (row[v.toNat]?.getD d) := by
  rw [List.getElem?_eq_getElem hlen, Option.getD_some]
  exact sliceGet_ok_of hv0 (List.getElem?_eq_getElem hlen)

theorem adjCell_of_row {g : Undirected} {k : Nat} {row : List Bool}
    (hrow : g.adjacencies[k]? = some row) (j : Nat) :
    adjCell g k j = row[j]?.getD false := by
  simp [adjCell, cellD, hrow]

theorem wtCell_of_row {g : Undirected} {k : Nat} {row : List Rat}
    (hrow : g.weights[k]? = some row) (j : Nat) :
    wtCell g k j = row[j]?.getD 0 := by
  simp [wtCell, cellD, hrow]

theorem degOf_getElem? {n : Int} {g : Undirected} (hInv : Inv n g) {k : Nat}
    (hk : k < n.toNat) : g.degrees[k]? = some (degOf g k) := by
  have hlen : k < g.degrees.length := by rw [hInv.hdegLen]; omega
  simp [degOf, List.getElem?_eq_getElem hlen]

theorem edgeList_getElem? {n : Int} {g : Undirected} (hInv : Inv n g) {k : Nat}
    (hk : k < n.toNat) : g.edges[k]? = some (edgeList g k) := by
  have hlen : k < g.edges.length := by rw [hInv.hedgLen]; omega
  simp [edgeList, List.getElem?_eq_getElem hlen]

theorem adjRead_eq {n : Int} {g : Undirected} (hInv : Inv n g)
    {u v : Int} (hu0 : 0 ≤ u) (hun : u < n) (hv0 : 0 ≤ v) (hvn : v < n) :
    (sliceGet g.adjacencies u).bind (fun row => sliceGet row v) =
      Except.ok (adjCell g u.toNat v.toNat) := by
  have hNu : u.toNat < g.adjacencies.length := by rw [hInv.hadjLen]; omega
  have hrow : g.adjacencies[u.toNat]? = some g.adjacencies[u.toNat] :=
    List.getElem?_eq_getElem hNu
  have hrlen : g.adjacencies[u.toNat].length = n.toNat :=
    hInv.hadjRow _ (List.getElem_mem hNu)
  rw [sliceGet_ok_of hu0 hrow, ok_bind,
    sliceGet_getD false hv0 (by rw [hrlen]; omega), adjCell_of_row hrow]

theorem wtRead_eq {n : Int} {g : Undirected} (hInv : Inv n g)
    {u v : Int} (hu0 : 0 ≤ u) (hun : u < n) (hv0 : 0 ≤ v) (hvn : v < n) :
    (sliceGet g.weights u).bind (fun row => sliceGet row v) =
      Except.ok (wtCell g u.toNat v.toNat) := by
  have hNu : u.toNat < g.weights.length := by rw [hInv.hwtLen]; omega
  have hrow : g.weights[u.toNat]? = some g.weights[u.toNat] :=
    List.getElem?_eq_getElem hNu
  have hrlen : g.weights[u.toNat].length = n.toNat :=
    hInv.hwtRow _ (List.getElem_mem hNu)
  rw [sliceGet_ok_of hu0 hrow, ok_bind,
    sliceGet_getD 0 hv0 (by rw [hrlen]; omega), wtCell_of_row hrow]

theorem degree_eq {n : Int} {g : Undirected} (hInv : Inv n g)
    {u : Int} (hu0 : 0 ≤ u) (hun : u < n) :
    Degree g u = Except.ok (degOf g u.toNat) :=
  sliceGet_ok_of hu0 (degOf_getElem? hInv (by omega))

theorem getEdges_eq {n : Int} {g : Undirected} (hInv : Inv n g)
    {u : Int} (hu0 : 0 ≤ u) (hun : u < n) :
    GetEdges g u = Except.ok (edgeList g u.toNat) :=
  sliceGet_ok_of hu0 (edgeList_getElem? hInv (by omega))

theorem isConnected_eq {n : Int} {g : Undirected} (hInv : Inv n g)
    {u v : Int} (hu0 : 0 ≤ u) (hun : u < n) (hv0 : 0 ≤ v) (hvn : v < n) :
    IsConnected g u v = Except.ok (Adj g u.toNat v.toNat) := by
  rw [IsConnected]
  by_cases huv : u > v
  · rw [if_pos huv, adjRead_eq hInv hu0 hun hv0 hvn, Adj,
      Nat.max_eq_left (by omega), Nat.min_eq_right (by omega)]
  · rw [if_neg huv, adjRead_eq hInv hv0 hvn hu0 hun, Adj,
      Nat.max_eq_right (by omega), Nat.min_eq_left (by omega)]

theorem adjCell_false_of_lt {n : Int} {g : Undirected} (hInv : Inv n g)
    {i j : Nat} (hij : i ≤ j) : adjCell g i j = false := by
  by_cases hb : adjCell g i j = true
  · have := hInv.hcanon i j hb
    omega
  · simpa using hb

theorem weight_eq {n : Int} {g : Undirected} (hInv : Inv n g)
    {u v : Int} (hu0 : 0 ≤ u) (hun : u < n) (hv0 : 0 ≤ v) (hvn : v < n) :
    Weight g u v =
      Except.ok (if Adj g u.toNat v.toNat then wtCell g u.toNat v.toNat else 0) := by
  have hNu : u.toNat < g.adjacencies.length := by rw [hInv.hadjLen]; omega
  have hrowU : g.adjacencies[u.toNat]? = some g.adjacencies[u.toNat] :=
    List.getElem?_eq_getElem hNu
  have hrlenU : g.adjacencies[u.toNat].length = n.toNat :=
    hInv.hadjRow _ (List.getElem_mem hNu)
  have hNv : v.toNat < g.adjacencies.length := by rw [hInv.hadjLen]; omega
  have hrowV : g.adjacencies[v.toNat]? = some g.adjacencies[v.toNat] :=
    List.getElem?_eq_getElem hNv
  have hrlenV : g.adjacencies[v.toNat].length = n.toNat :=
    hInv.hadjRow _ (List.getElem_mem hNv)
  rw [Weight, sliceGet_ok_of hu0 hrowU, ok_bind,
    sliceGet_getD false hv0 (by rw [hrlenU]; omega), ok_bind,
    ← adjCell_of_row hrowU v.toNat]
  by_cases h12 : adjCell g u.toNat v.toNat = true
  · have hAdj : Adj g u.toNat v.toNat = true := by
      have hvu : v.toNat < u.toNat := (hInv.hcanon _ _ h12).1
      rw [Adj, Nat.max_eq_left (by omega), Nat.min_eq_right (by omega)]
      exact h12
    rw [h12, if_pos rfl, wtRead_eq hInv hu0 hun hv0 hvn, hAdj, if_pos rfl]
  · rw [Bool.not_eq_true] at h12
    rw [h12]
    rw [if_neg (by simp), sliceGet_ok_of hv0 hrowV, ok_bind,
      sliceGet_getD false hu0 (by rw [hrlenV]; omega), ok_bind,
      ← adjCell_of_row hrowV u.toNat]
    by_cases h21 : adjCell g v.toNat u.toNat = true
    · have hAdj : Adj g u.toNat v.toNat = true := by
        have huv : u.toNat < v.toNat := (hInv.hcanon _ _ h21).1
        rw [Adj, Nat.max_eq_right (by omega), Nat.min_eq_left (by omega)]
        exact h21
      rw [h21, if_pos rfl, wtRead_eq hInv hu0 hun hv0 hvn, hAdj, if_pos rfl]
    · rw [Bool.not_eq_true] at h21
      have hAdj : Adj g u.toNat v.toNat = false := by
        rcases Nat.le_total u.toNat v.toNat with hle | hle
        · rw [Adj, Nat.max_eq_right hle, Nat.min_eq_left hle]
          exact h21
        · rw [Adj, Nat.max_eq_left hle, Nat.min_eq_right hle]
          exact h12
      rw [h21, if_neg (by simp), hAdj, if_neg (by simp)]

theorem getElem?_replicate_lt {α : Type} {a : α} {n i : Nat} (h : i < n) :
    (List.replicate n a)[i]? = some a := by
  simp [List.getElem?_replicate, h]

theorem cellD_replicate {α : Type} (d : α) (n m i j : Nat) :
    cellD d (List.replicate n (List.replicate m d)) i j = d := by
  rw [cellD]
  by_cases hi : i < n
  · rw [getElem?_replicate_lt hi, Option.getD_some]
    by_cases hj : j < m
    · rw [getElem?_replicate_lt hj, Option.getD_some]
    · have hj2 : (List.replicate m d)[j]? = none :=
        List.getElem?_eq_none (by rw [List.length_replicate]; omega)
      rw [hj2, Option.getD_none]
  · have hi2 : (List.replicate n (List.replicate m d))[i]? = none :=
      List.getElem?_eq_none (by rw [List.length_replicate]; omega)
    rw [hi2]
    simp

theorem getElem?D_replicate_nil {α : Type} (n i : Nat) :
    ((List.replicate n ([] : List α))[i]?).getD [] = [] := by
  by_cases hi : i < n
  · rw [getElem?_replicate_lt hi, Option.getD_some]
  · rw [List.getElem?_eq_none (by rw [List.length_replicate]; omega), Option.getD_none]

theorem clear_inv {g : Undirected} (h0 : 0 ≤ g.numVertices) :
    ∃ g1, Clear g = Except.ok g1 ∧ Inv g.numVertices g1 := by
  refine
    ⟨{ adjacencies :=
         List.replicate g.numVertices.toNat (List.replicate g.numVertices.toNat false)
     , edges := List.replicate g.numVertices.toNat []
     , weights := List.replicate g.numVertices.toNat (List.replicate g.numVertices.toNat 0)
     , degrees := List.replicate g.numVertices.toNat 0
     , numVertices := g.numVertices
     , numEdges := 0 }, by rw [Clear, if_pos h0], ?_⟩
  constructor
  · rfl
  · exact h0
  · simp
  · simp
  · intro row hrow
    rw [List.eq_of_mem_replicate hrow]
    simp
  · simp
  · simp
  · intro row hrow
    rw [List.eq_of_mem_replicate hrow]
    simp
  · intro i j hb
    exact absurd (cellD_replicate false g.numVertices.toNat g.numVertices.toNat i j)
      (by rw [show cellD false
          (List.replicate g.numVertices.toNat (List.replicate g.numVertices.toNat false)) i j =
          true from hb]; simp)
  · intro i j _ _
    exact (cellD_replicate (0 : Rat) g.numVertices.toNat g.numVertices.toNat i j).trans
      (cellD_replicate (0 : Rat) g.numVertices.toNat g.numVertices.toNat j i).symm
  · intro i j _ _
    rw [show edgeList
        { adjacencies :=
            List.replicate g.numVertices.toNat (List.replicate g.numVertices.toNat false)
        , edges := List.replicate g.numVertices.toNat ([] : List Int)
        , weights := List.replicate g.numVertices.toNat (List.replicate g.numVertices.toNat 0)
        , degrees := List.replicate g.numVertices.toNat 0
        , numVertices := g.numVertices
        , numEdges := 0 } i = [] from getElem?D_replicate_nil g.numVertices.toNat i]
    rw [show Adj
        { adjacencies :=
            List.replicate g.numVertices.toNat (List.replicate g.numVertices.toNat false)
        , edges := List.replicate g.numVertices.toNat ([] : List Int)
        , weights := List.replicate g.numVertices.toNat (List.replicate g.numVertices.toNat 0)
        , degrees := List.replicate g.numVertices.toNat 0
        , numVertices := g.numVertices
        , numEdges := 0 } i j = false from
      cellD_replicate false g.numVertices.toNat g.numVertices.toNat (max i j) (min i j)]
    simp
  · intro i x hx
    rw [show edgeList
        { adjacencies :=
            List.replicate g.numVertices.toNat (List.replicate g.numVertices.toNat false)
        , edges := List.replicate g.numVertices.toNat ([] : List Int)
        , weights := List.replicate g.numVertices.toNat (List.replicate g.numVertices.toNat 0)
        , degrees := List.replicate g.numVertices.toNat 0
        , numVertices := g.numVertices
        , numEdges := 0 } i = [] from getElem?D_replicate_nil g.numVertices.toNat i] at hx
    exact absurd hx (List.not_mem_nil x)
  · intro i
    rw [show edgeList
        { adjacencies :=
            List.replicate g.numVertices.toNat (List.replicate g.numVertices.toNat false)
        , edges := List.replicate g.numVertices.toNat ([] : List Int)
        , weights := List.replicate g.numVertices.toNat (List.replicate g.numVertices.toNat 0)
        , degrees := List.replicate g.numVertices.toNat 0
        , numVertices := g.numVertices
        , numEdges := 0 } i = [] from getElem?D_replicate_nil g.numVertices.toNat i]
    exact List.nodup_nil
  · intro i hi
    rw [show edgeList
        { adjacencies :=
            List.replicate g.numVertices.toNat (List.replicate g.numVertices.toNat false)
        , edges := List.replicate g.numVertices.toNat ([] : List Int)
        , weights := List.replicate g.numVertices.toNat (List.replicate g.numVertices.toNat 0)
        , degrees := List.replicate g.numVertices.toNat 0
        , numVertices := g.numVertices
        , numEdges := 0 } i = [] from getElem?D_replicate_nil g.numVertices.toNat i]
    rw [degOf, getElem?_replicate_lt hi]
    simp
  · simp

theorem newGraph_inv {n : Int} (h0 : 0 ≤ n) :
    ∃ g1, NewGraph n = Except.ok g1 ∧ Inv n g1 :=
  clear_inv h0

theorem inv_add_aux {n : Int} {g g1 : Undirected} {u v hi lo : Int} {w : Rat}
    {adjRow : List Bool} {wRowHi wRowLo : List Rat}
    (hInv : Inv n g)
    (hu0 : 0 ≤ u) (hun : u < n) (hv0 : 0 ≤ v) (hvn : v < n) (huv : u ≠ v)
    (hroles : (hi = u ∧ lo = v) ∨ (hi = v ∧ lo = u)) (hlohi : lo < hi)
    (hnadj : Adj g u.toNat v.toNat = false)
    (hadjRowEq : g.adjacencies[hi.toNat]? = some adjRow)
    (hwRowHiEq : g.weights[hi.toNat]? = some wRowHi)
    (hwRowLoEq : g.weights[lo.toNat]? = some wRowLo)
    (h1 : g1.adjacencies = g.adjacencies.set hi.toNat (adjRow.set lo.toNat true))
    (h2 : g1.edges = (g.edges.set hi.toNat (edgeList g hi.toNat ++ [lo])).set lo.toNat
      (edgeList g lo.toNat ++ [hi]))
    (h3 : g1.weights = (g.weights.set hi.toNat (wRowHi.set lo.toNat w)).set lo.toNat
      (wRowLo.set hi.toNat w))
    (h4 : g1.degrees = (g.degrees.set u.toNat (degOf g u.toNat + 1)).set v.toNat
      (degOf g v.toNat + 1))
    (h5 : g1.numVertices = g.numVertices)
    (h6 : g1.numEdges = g.numEdges + 1) :
    Inv n g1 := by
  have hhi0 : 0 ≤ hi := by rcases hroles with ⟨ha, hb⟩ | ⟨ha, hb⟩ <;> omega
  have hhin : hi < n := by rcases hroles with ⟨ha, hb⟩ | ⟨ha, hb⟩ <;> omega
  have hlo0 : 0 ≤ lo := by rcases hroles with ⟨ha, hb⟩ | ⟨ha, hb⟩ <;> omega
  have hlon : lo < n := by rcases hroles with ⟨ha, hb⟩ | ⟨ha, hb⟩ <;> omega
  have hloNhiN : lo.toNat < hi.toNat := by omega
  have hhiN : hi.toNat < n.toNat := by omega
  have hloN : lo.toNat < n.toNat := by omega
  have huN : u.toNat < n.toNat := by omega
  have hvN : v.toNat < n.toNat := by omega
  have huvN : u.toNat ≠ v.toNat := by omega
  have hrolesN : (hi.toNat = u.toNat ∧ lo.toNat = v.toNat) ∨
      (hi.toNat = v.toNat ∧ lo.toNat = u.toNat) := by
    rcases hroles with ⟨ha, hb⟩ | ⟨ha, hb⟩
    · left; omega
    · right; omega
  have hadjRowLen : adjRow.length = n.toNat := hInv.hadjRow _ (List.getElem?_mem hadjRowEq)
  have hwRowHiLen : wRowHi.length = n.toNat := hInv.hwtRow _ (List.getElem?_mem hwRowHiEq)
  have hwRowLoLen : wRowLo.length = n.toNat := hInv.hwtRow _ (List.getElem?_mem hwRowLoEq)
  have hwl2 : (g.weights.set hi.toNat (wRowHi.set lo.toNat w))[lo.toNat]? = some wRowLo := by
    rw [List.getElem?_set_ne (by omega)]
    exact hwRowLoEq
  -- how each cell, list entry and counter looks after the update
  have hadj1 : ∀ i j : Nat, adjCell g1 i j =
      if i = hi.toNat ∧ j = lo.toNat then true else adjCell g i j := by
    intro i j
    by_cases hc : i = hi.toNat ∧ j = lo.toNat
    · obtain ⟨hc1, hc2⟩ := hc
      subst hc1
      subst hc2
      rw [if_pos ⟨rfl, rfl⟩, adjCell, h1,
        cellD_set_eq false true hadjRowEq (by rw [hadjRowLen]; omega)]
    · rw [if_neg hc, adjCell, adjCell, h1, cellD_set_ne false true hadjRowEq hc]
  have hwt1 : ∀ i j : Nat, wtCell g1 i j =
      if i = lo.toNat ∧ j = hi.toNat then w
      else if i = hi.toNat ∧ j = lo.toNat then w
      else wtCell g i j := by
    intro i j
    rw [wtCell, h3]
    by_cases hc1 : i = lo.toNat ∧ j = hi.toNat
    · obtain ⟨ha, hb⟩ := hc1
      subst ha
      subst hb
      rw [if_pos ⟨rfl, rfl⟩]
      exact cellD_set_eq 0 w hwl2 (by rw [hwRowLoLen]; omega)
    · rw [if_neg hc1, cellD_set_ne 0 w hwl2 hc1]
      by_cases hc2 : i = hi.toNat ∧ j = lo.toNat
      · obtain ⟨ha, hb⟩ := hc2
        subst ha
        subst hb
        rw [if_pos ⟨rfl, rfl⟩]
        exact cellD_set_eq 0 w hwRowHiEq (by rw [hwRowHiLen]; omega)
      · rw [if_neg hc2, cellD_set_ne 0 w hwRowHiEq hc2, wtCell]
  have hedg1 : ∀ i : Nat, edgeList g1 i =
      if i = lo.toNat then edgeList g lo.toNat ++ [hi]
      else if i = hi.toNat then edgeList g hi.toNat ++ [lo]
      else edgeList g i := by
    intro i
    rw [edgeList, h2]
    by_cases hclo : i = lo.toNat
    · subst hclo
      rw [if_pos rfl,
        getElem?_set_self _ _ _ (by rw [List.length_set, hInv.hedgLen]; omega),
        Option.getD_some]
    · rw [if_neg hclo, List.getElem?_set_ne (by omega)]
      by_cases hchi : i = hi.toNat
      · subst hchi
        rw [if_pos rfl, getElem?_set_self _ _ _ (by rw [hInv.hedgLen]; omega),
          Option.getD_some]
      · rw [if_neg hchi, List.getElem?_set_ne (by omega), edgeList]
  have hdeg1 : ∀ i : Nat, degOf g1 i =
      if i = v.toNat then degOf g v.toNat + 1
      else if i = u.toNat then degOf g u.toNat + 1
      else degOf g i := by
    intro i
    rw [degOf, h4]
    by_cases hcv : i = v.toNat
    · subst hcv
      rw [if_pos rfl,
        getElem?_set_self _ _ _ (by rw [List.length_set, hInv.hdegLen]; omega),
        Option.getD_some]
    · rw [if_neg hcv, List.getElem?_set_ne (by omega)]
      by_cases hcu : i = u.toNat
      · subst hcu
        rw [if_pos rfl, getElem?_set_self _ _ _ (by rw [hInv.hdegLen]; omega),
          Option.getD_some]
      · rw [if_neg hcu, List.getElem?_set_ne (by omega), degOf]
  have hAdj1 : ∀ i j : Nat, (Adj g1 i j = true ↔
      ((i = hi.toNat ∧ j = lo.toNat) ∨ (i = lo.toNat ∧ j = hi.toNat) ∨ Adj g i j = true)) := by
    intro i j
    rw [Adj, Adj, hadj1 (max i j) (min i j)]
    by_cases hc : max i j = hi.toNat ∧ min i j = lo.toNat
    · rw [if_pos hc]
      constructor
      · intro _
        rcases Nat.le_total i j with hle | hle
        · exact Or.inr (Or.inl ⟨by omega, by omega⟩)
        · exact Or.inl ⟨by omega, by omega⟩
      · intro _
        rfl
    · rw [if_neg hc]
      constructor
      · exact fun hb => Or.inr (Or.inr hb)
      · rintro (⟨ha, hb⟩ | ⟨ha, hb⟩ | hb)
        · exact absurd (show max i j = hi.toNat ∧ min i j = lo.toNat by omega) hc
        · exact absurd (show max i j = hi.toNat ∧ min i j = lo.toNat by omega) hc
        · exact hb
  constructor
  · rw [h5, hInv.hn]
  · exact hInv.hn0
  · rw [h4, List.length_set, List.length_set, hInv.hdegLen]
  · rw [h1, List.length_set, hInv.hadjLen]
  · intro row hrow
    rw [h1] at hrow
    rcases mem_set_cases (show hi.toNat < g.adjacencies.length by
      rw [hInv.hadjLen]; omega) row hrow with h | h
    · exact hInv.hadjRow row h
    · rw [h, List.length_set, hadjRowLen]
  · rw [h2, List.length_set, List.length_set, hInv.hedgLen]
  · rw [h3, List.length_set, List.length_set, hInv.hwtLen]
  · intro row hrow
    rw [h3] at hrow
    rcases mem_set_cases (show lo.toNat <
        (g.weights.set hi.toNat (wRowHi.set lo.toNat w)).length by
      rw [List.length_set, hInv.hwtLen]; omega) row hrow with h | h
    · rcases mem_set_cases (show hi.toNat < g.weights.length by
        rw [hInv.hwtLen]; omega) row h with h2a | h2a
      · exact hInv.hwtRow row h2a
      · rw [h2a, List.length_set, hwRowHiLen]
    · rw [h, List.length_set, hwRowLoLen]
  · intro i j hb
    rw [hadj1 i j] at hb
    by_cases hc : i = hi.toNat ∧ j = lo.toNat
    · exact ⟨by omega, by omega⟩
    · rw [if_neg hc] at hb
      exact hInv.hcanon i j hb
  · intro i j hiN hjN
    rw [hwt1 i j, hwt1 j i]
    by_cases hc1 : i = lo.toNat ∧ j = hi.toNat
    · rw [if_pos hc1, if_neg (by omega), if_pos (by omega)]
    · rw [if_neg hc1]
      by_cases hc2 : i = hi.toNat ∧ j = lo.toNat
      · rw [if_pos hc2, if_pos (by omega)]
      · rw [if_neg hc2, if_neg (by omega), if_neg (by omega)]
        exact hInv.hwsym i j hiN hjN
  · intro i j hiN hjN
    rw [hedg1 i, hAdj1 i j]
    by_cases hclo : i = lo.toNat
    · subst hclo
      rw [if_pos rfl, List.mem_append, hInv.hmem lo.toNat j hloN hjN,
        List.mem_singleton]
      constructor
      · rintro (hb | hb)
        · exact Or.inr (Or.inr hb)
        · exact Or.inr (Or.inl ⟨rfl, by omega⟩)
      · rintro (⟨ha, hb⟩ | ⟨ha, hb⟩ | hb)
        · omega
        · right
          omega
        · left
          exact hb
    · rw [if_neg hclo]
      by_cases hchi : i = hi.toNat
      · subst hchi
        rw [if_pos rfl, List.mem_append, hInv.hmem hi.toNat j hhiN hjN,
          List.mem_singleton]
        constructor
        · rintro (hb | hb)
          · exact Or.inr (Or.inr hb)
          · exact Or.inl ⟨rfl, by omega⟩
        · rintro (⟨ha, hb⟩ | ⟨ha, hb⟩ | hb)
          · right
            omega
          · omega
          · left
            exact hb
      · rw [if_neg hchi, hInv.hmem i j hiN hjN]
        constructor
        · exact fun hb => Or.inr (Or.inr hb)
        · rintro (⟨ha, hb⟩ | ⟨ha, hb⟩ | hb)
          · exact absurd ha hchi
          · exact absurd ha hclo
          · exact hb
  · intro i x hx
    rw [hedg1 i] at hx
    by_cases hclo : i = lo.toNat
    · rw [if_pos hclo, List.mem_append, List.mem_singleton] at hx
      rcases hx with hx | rfl
      · exact hInv.hrange _ x hx
      · exact ⟨hhi0, hhin⟩
    · rw [if_neg hclo] at hx
      by_cases hchi : i = hi.toNat
      · rw [if_pos hchi, List.mem_append, List.mem_singleton] at hx
        rcases hx with hx | rfl
        · exact hInv.hrange _ x hx
        · exact ⟨hlo0, hlon⟩
      · rw [if_neg hchi] at hx
        exact hInv.hrange _ x hx
  · intro i
    rw [hedg1 i]
    by_cases hclo : i = lo.toNat
    · rw [if_pos hclo, List.nodup_append]
      refine ⟨hInv.hnodup _, List.nodup_singleton _, ?_⟩
      intro x hx hx2
      rw [List.mem_singleton] at hx2
      rw [hx2] at hx
      rw [show hi = ((hi.toNat : Nat) : Int) by omega,
        hInv.hmem lo.toNat hi.toNat hloN hhiN] at hx
      rw [show Adj g lo.toNat hi.toNat = Adj g u.toNat v.toNat by
        rw [Adj, Adj]; congr 1 <;> omega, hnadj] at hx
      exact Bool.noConfusion hx
    · rw [if_neg hclo]
      by_cases hchi : i = hi.toNat
      · rw [if_pos hchi, List.nodup_append]
        refine ⟨hInv.hnodup _, List.nodup_singleton _, ?_⟩
        intro x hx hx2
        rw [List.mem_singleton] at hx2
        rw [hx2] at hx
        rw [show lo = ((lo.toNat : Nat) : Int) by omega,
          hInv.hmem hi.toNat lo.toNat hhiN hloN] at hx
        rw [show Adj g hi.toNat lo.toNat = Adj g u.toNat v.toNat by
          rw [Adj, Adj]; congr 1 <;> omega, hnadj] at hx
        exact Bool.noConfusion hx
      · rw [if_neg hchi]
        exact hInv.hnodup i
  · intro i hiN
    rw [hdeg1 i, hedg1 i]
    rcases hrolesN with ⟨hr1, hr2⟩ | ⟨hr1, hr2⟩
    · by_cases hcv : i = v.toNat
      · subst hcv
        rw [if_pos rfl, if_pos (by omega : v.toNat = lo.toNat),
          show lo.toNat = v.toNat by omega, List.length_append,
          hInv.hdegCount v.toNat hvN]
        simp only [List.length_singleton]
        push_cast
        omega
      · by_cases hcu : i = u.toNat
        · subst hcu
          rw [if_neg hcv, if_pos rfl, if_neg (by omega : ¬ u.toNat = lo.toNat),
            if_pos (by omega : u.toNat = hi.toNat), show hi.toNat = u.toNat by omega,
            List.length_append, hInv.hdegCount u.toNat huN]
          simp only [List.length_singleton]
          push_cast
          omega
        · rw [if_neg hcv, if_neg hcu, if_neg (by omega : ¬ i = lo.toNat),
            if_neg (by omega : ¬ i = hi.toNat)]
          exact hInv.hdegCount i hiN
    · by_cases hcv : i = v.toNat
      · subst hcv
        rw [if_pos rfl, if_neg (by omega : ¬ v.toNat = lo.toNat),
          if_pos (by omega : v.toNat = hi.toNat), show hi.toNat = v.toNat by omega,
          List.length_append, hInv.hdegCount v.toNat hvN]
        simp only [List.length_singleton]
        push_cast
        omega
      · by_cases hcu : i = u.toNat
        · subst hcu
          rw [if_neg hcv, if_pos rfl, if_pos (by omega : u.toNat = lo.toNat),
            show lo.toNat = u.toNat by omega, List.length_append,
            hInv.hdegCount u.toNat huN]
          simp only [List.length_singleton]
          push_cast
          omega
        · rw [if_neg hcv, if_neg hcu, if_neg (by omega : ¬ i = lo.toNat),
            if_neg (by omega : ¬ i = hi.toNat)]
          exact hInv.hdegCount i hiN
  · have hL1 : u.toNat < g.degrees.length := by rw [hInv.hdegLen]; omega
    have hL2 : v.toNat < (g.degrees.set u.toNat (degOf g u.toNat + 1)).length := by
      rw [List.length_set, hInv.hdegLen]; omega
    have e1 : ((g.degrees.set u.toNat (degOf g u.toNat + 1))[v.toNat]?).getD 0 =
        degOf g v.toNat := by
      rw [List.getElem?_set_ne (by omega)]
      rfl
    have e2 : (g.degrees[u.toNat]?).getD 0 = degOf g u.toNat := rfl
    rw [h6, h4, sum_set_int _ _ _ hL2, e1, sum_set_int _ _ _ hL1, e2]
    have := hInv.hsum
    omega

theorem addTail_ok {n : Int} {g : Undirected} (hInv : Inv n g) {u v hi lo : Int}
    (hu0 : 0 ≤ u) (hun : u < n) (hv0 : 0 ≤ v) (hvn : v < n) (huv : u ≠ v)
    (hroles : (hi = u ∧ lo = v) ∨ (hi = v ∧ lo = u)) (hlohi : lo < hi)
    (hnadj : Adj g u.toNat v.toNat = false) (w : Rat) :
    ∃ g1,
      ((sliceModify g.degrees u (fun d => d + 1)).bind fun degrees1 =>
       (sliceModify degrees1 v (fun d => d + 1)).bind fun degrees2 =>
       (matSet g.adjacencies hi lo true).bind fun adjacencies1 =>
       (matSet g.weights hi lo w).bind fun weights1 =>
       (matSet weights1 lo hi w).bind fun weights2 =>
       (sliceGet g.edges hi).bind fun rowHi =>
       (sliceSet g.edges hi (rowHi ++ [lo])).bind fun edges1 =>
       (sliceGet edges1 lo).bind fun rowLo =>
       (sliceSet edges1 lo (rowLo ++ [hi])).bind fun edges2 =>
       Except.ok
         { adjacencies := adjacencies1
         , edges := edges2
         , weights := weights2
         , degrees := degrees2
         , numVertices := g.numVertices
         , numEdges := g.numEdges + 1 }) = Except.ok g1 ∧ Inv n g1 := by
  have hhi0 : 0 ≤ hi := by rcases hroles with ⟨h1, h2⟩ | ⟨h1, h2⟩ <;> omega
  have hhin : hi < n := by rcases hroles with ⟨h1, h2⟩ | ⟨h1, h2⟩ <;> omega
  have hlo0 : 0 ≤ lo := by rcases hroles with ⟨h1, h2⟩ | ⟨h1, h2⟩ <;> omega
  have hlon : lo < n := by rcases hroles with ⟨h1, h2⟩ | ⟨h1, h2⟩ <;> omega
  have hloNhiN : lo.toNat < hi.toNat := by omega
  have hhiN : hi.toNat < n.toNat := by omega
  have hloN : lo.toNat < n.toNat := by omega
  have huN : u.toNat < n.toNat := by omega
  have hvN : v.toNat < n.toNat := by omega
  have huvN : u.toNat ≠ v.toNat := by omega
  have hrolesN : (hi.toNat = u.toNat ∧ lo.toNat = v.toNat) ∨
      (hi.toNat = v.toNat ∧ lo.toNat = u.toNat) := by
    rcases hroles with ⟨h1, h2⟩ | ⟨h1, h2⟩
    · left; omega
    · right; omega
  -- the two degree increments
  have hdu := degOf_getElem? hInv huN
  have hdv := degOf_getElem? hInv hvN
  have hs1 : sliceModify g.degrees u (fun d => d + 1) =
      Except.ok (g.degrees.set u.toNat (degOf g u.toNat + 1)) :=
    sliceModify_ok _ hu0 hdu
  have hd1v : (g.degrees.set u.toNat (degOf g u.toNat + 1))[v.toNat]? =
      some (degOf g v.toNat) := by
    rw [List.getElem?_set_ne (by omega)]
    exact hdv
  have hs2 : sliceModify (g.degrees.set u.toNat (degOf g u.toNat + 1)) v (fun d => d + 1) =
      Except.ok ((g.degrees.set u.toNat (degOf g u.toNat + 1)).set v.toNat
        (degOf g v.toNat + 1)) :=
    sliceModify_ok _ hv0 hd1v
  -- the adjacency-matrix write
  have hNhiA : hi.toNat < g.adjacencies.length := by rw [hInv.hadjLen]; omega
  have hrowA : g.adjacencies[hi.toNat]? = some g.adjacencies[hi.toNat] :=
    List.getElem?_eq_getElem hNhiA
  have hrowAlen : g.adjacencies[hi.toNat].length = n.toNat :=
    hInv.hadjRow _ (List.getElem_mem hNhiA)
  have hA : matSet g.adjacencies hi lo true =
      Except.ok (g.adjacencies.set hi.toNat (g.adjacencies[hi.toNat].set lo.toNat true)) :=
    matSet_ok _ hhi0 hrowA hlo0 (by rw [hrowAlen]; omega)
  -- the two weight-matrix writes
  have hNhiW : hi.toNat < g.weights.length := by rw [hInv.hwtLen]; omega
  have hNloW : lo.toNat < g.weights.length := by rw [hInv.hwtLen]; omega
  have hrowWh : g.weights[hi.toNat]? = some g.weights[hi.toNat] :=
    List.getElem?_eq_getElem hNhiW
  have hrowWhLen : g.weights[hi.toNat].length = n.toNat :=
    hInv.hwtRow _ (List.getElem_mem hNhiW)
  have hrowWlVal : g.weights[lo.toNat]? = some g.weights[lo.toNat] :=
    List.getElem?_eq_getElem hNloW
  have hrowWlLen : g.weights[lo.toNat].length = n.toNat :=
    hInv.hwtRow _ (List.getElem_mem hNloW)
  have hW1 : matSet g.weights hi lo w =
      Except.ok (g.weights.set hi.toNat (g.weights[hi.toNat].set lo.toNat w)) :=
    matSet_ok _ hhi0 hrowWh hlo0 (by rw [hrowWhLen]; omega)
  have hrowWl : (g.weights.set hi.toNat (g.weights[hi.toNat].set lo.toNat w))[lo.toNat]? =
      some g.weights[lo.toNat] := by
    rw [List.getElem?_set_ne (by omega)]
    exact hrowWlVal
  have hW2 : matSet (g.weights.set hi.toNat (g.weights[hi.toNat].set lo.toNat w)) lo hi w =
      Except.ok ((g.weights.set hi.toNat (g.weights[hi.toNat].set lo.toNat w)).set lo.toNat
        (g.weights[lo.toNat].set hi.toNat w)) :=
    matSet_ok _ hlo0 hrowWl hhi0 (by rw [hrowWlLen]; omega)
  -- the two adjacency-list appends
  have hEhiSome := edgeList_getElem? hInv hhiN
  have hEhi : sliceGet g.edges hi = Except.ok (edgeList g hi.toNat) :=
    sliceGet_ok_of hhi0 hEhiSome
  have hE1 : sliceSet g.edges hi (edgeList g hi.toNat ++ [lo]) =
      Except.ok (g.edges.set hi.toNat (edgeList g hi.toNat ++ [lo])) :=
    sliceSet_ok _ hhi0 (lt_of_getElem?_some hEhiSome)
  have hEloSome : (g.edges.set hi.toNat (edgeList g hi.toNat ++ [lo]))[lo.toNat]? =
      some (edgeList g lo.toNat) := by
    rw [List.getElem?_set_ne (by omega)]
    exact edgeList_getElem? hInv hloN
  have hElo : sliceGet (g.edges.set hi.toNat (edgeList g hi.toNat ++ [lo])) lo =
      Except.ok (edgeList g lo.toNat) :=
    sliceGet_ok_of hlo0 hEloSome
  have hE2 : sliceSet (g.edges.set hi.toNat (edgeList g hi.toNat ++ [lo])) lo
      (edgeList g lo.toNat ++ [hi]) =
      Except.ok ((g.edges.set hi.toNat (edgeList g hi.toNat ++ [lo])).set lo.toNat
        (edgeList g lo.toNat ++ [hi])) :=
    sliceSet_ok _ hlo0 (lt_of_getElem?_some hEloSome)
  refine ⟨_, by
    simp only [hs1, ok_bind, hs2, hA, hW1, hW2, hEhi, hE1, hElo, hE2]
    rfl, ?_⟩
  exact inv_add_aux hInv hu0 hun hv0 hvn huv hroles hlohi hnadj hrowA hrowWh hrowWlVal
    rfl rfl rfl rfl rfl rfl

theorem addEdgeWeight_ok {n : Int} {g : Undirected} (hInv : Inv n g)
    {u v : Int} (hu0 : 0 ≤ u) (hun : u < n) (hv0 : 0 ≤ v) (hvn : v < n) (w : Rat) :
    ∃ g1, AddEdgeWeight g u v w = Except.ok g1 ∧ Inv n g1 := by
  by_cases huv : u = v
  · exact ⟨g, by rw [AddEdgeWeight, if_pos huv], hInv⟩
  · have hconn := isConnected_eq hInv hu0 hun hv0 hvn
    by_cases hadj : Adj g u.toNat v.toNat = true
    · refine ⟨g, ?_, hInv⟩
      simp only [AddEdgeWeight, if_neg huv, hconn, ok_bind, hadj]
      rfl
    · rw [Bool.not_eq_true] at hadj
      rcases lt_or_gt_of_ne huv with hlt | hgt
      · obtain ⟨g1, hrun, hInv1⟩ :=
          addTail_ok hInv hu0 hun hv0 hvn huv (Or.inr ⟨rfl, rfl⟩) hlt hadj w
        refine ⟨g1, ?_, hInv1⟩
        simp only [AddEdgeWeight, if_neg huv, hconn, ok_bind, hadj]
        rw [if_neg (by simp)]
        simp only [if_pos hlt]
        exact hrun
      · have hnlt : ¬ u < v := by omega
        obtain ⟨g1, hrun, hInv1⟩ :=
          addTail_ok hInv hu0 hun hv0 hvn huv (Or.inl ⟨rfl, rfl⟩) hgt hadj w
        refine ⟨g1, ?_, hInv1⟩
        simp only [AddEdgeWeight, if_neg huv, hconn, ok_bind, hadj]
        rw [if_neg (by simp)]
        simp only [if_neg hnlt]
        exact hrun

theorem clear_preserve {n : Int} {g : Undirected} (hInv : Inv n g) :
    ∃ g1, Clear g = Except.ok g1 ∧ Inv n g1 := by
  have h0 : 0 ≤ g.numVertices := by rw [hInv.hn]; exact hInv.hn0
  obtain ⟨g1, h, hI⟩ := clear_inv h0
  exact ⟨g1, h, by rwa [hInv.hn] at hI⟩

theorem applyOp_inv {n : Int} {g : Undirected} {op : Op} (hInv : Inv n g)
    (hop : opInRange n op = true) :
    ∃ g1, applyOp g op = Except.ok g1 ∧ Inv n g1 := by
  cases op with
  | addEdge u v =>
      rw [opInRange, decide_eq_true_eq] at hop
      exact addEdgeWeight_ok hInv hop.1 hop.2.1 hop.2.2.1 hop.2.2.2 1
  | addEdgeWeight u v w =>
      rw [opInRange, decide_eq_true_eq] at hop
      exact addEdgeWeight_ok hInv hop.1 hop.2.1 hop.2.2.1 hop.2.2.2 w
  | clear => exact clear_preserve hInv

theorem applyOps_inv {n : Int} : ∀ (ops : List Op) {g : Undirected}, Inv n g →
    ops.all (opInRange n) = true → ∃ g1, applyOps g ops = Except.ok g1 ∧ Inv n g1
  | [], g, hInv, _ => ⟨g, rfl, hInv⟩
  | op :: ops, g, hInv, hall => by
      rw [List.all_cons, Bool.and_eq_true] at hall
      obtain ⟨ga, ha, hIa⟩ := applyOp_inv hInv hall.1
      obtain ⟨gb, hb, hIb⟩ := applyOps_inv ops hIa hall.2
      exact ⟨gb, by rw [applyOps, ha, ok_bind, hb], hIb⟩

theorem reachable_inv {g : Undirected} (h : ReachableIn g) : ∃ n : Int, Inv n g := by
  obtain ⟨n, ops, hn0, hall, hrun⟩ := h
  obtain ⟨g0, hg0, hI0⟩ := newGraph_inv hn0
  rw [hg0, ok_bind] at hrun
  obtain ⟨g1, h1, hI1⟩ := applyOps_inv ops hI0 hall
  rw [h1] at hrun
  injection hrun with hrun
  exact ⟨n, hrun ▸ hI1⟩

theorem isConnected_symm (g : Undirected) (u v : Int) :
    IsConnected g u v = IsConnected g v u := by
  rw [IsConnected, IsConnected]
  rcases lt_trichotomy u v with h | h | h
  · rw [if_neg (by omega), if_pos (by omega)]
  · subst h
    rfl
  · rw [if_pos (by omega), if_neg (by omega)]

theorem gW_reachable : ReachableIn gW :=
  ⟨2, [Op.addEdge 0 1], by decide, by decide, by rfl⟩

theorem ok_map {α β : Type} (a : α) (f : α → β) :
    (Except.ok a : Except RuntimeErr α).map f = Except.ok (f a) := rfl

theorem degreeSum_foldl {g : Undirected} : ∀ (l : List Nat) (acc : Int),
    (∀ k ∈ l, Degree g (↑k : Int) = Except.ok ((g.degrees[k]?).getD 0)) →
    l.foldl (fun acc2 (k : Nat) => acc2.bind fun s => (Degree g (↑k : Int)).map fun d => s + d)
      (Except.ok acc) =
      Except.ok (acc + (l.map (fun k => (g.degrees[k]?).getD 0)).sum)
  | [], acc, _ => by simp
  | k :: l, acc, h => by
      simp only [List.foldl_cons, ok_bind, h k (List.mem_cons_self k l), ok_map]
      rw [degreeSum_foldl l (acc + (g.degrees[k]?).getD 0)
        (fun k2 hk2 => h k2 (List.mem_cons_of_mem _ hk2)), List.map_cons, List.sum_cons]
      congr 1
      ring

theorem map_getD_range_sum : ∀ (xs : List Int),
    ((List.range xs.length).map (fun k => (xs[k]?).getD 0)).sum = xs.sum
  | [] => by simp
  | x :: xs => by
      rw [List.length_cons, List.range_succ_eq_map, List.map_cons, List.map_map,
        List.sum_cons]
      have hmap : (List.range xs.length).map
          ((fun k => (((x :: xs)[k]?).getD 0)) ∘ Nat.succ) =
          (List.range xs.length).map (fun k => ((xs[k]?).getD 0)) :=
        List.map_congr_left (fun a _ => by simp)
      rw [hmap, map_getD_range_sum xs, List.sum_cons]
      simp

theorem readRun_succ {s s1 : ReadState} (h : readStep s = Except.ok (Sum.inr s1))
    (fuel : Nat) : readRun (fuel + 1) s = readRun fuel s1 := by
  simp [readRun, h]

theorem readRun_none_step {s s1 : ReadState} (h : readStep s = Except.ok (Sum.inr s1))
    (h2 : ∀ fuel, readRun fuel s1 = Except.ok none) :
    ∀ fuel, readRun fuel s = Except.ok none
  | 0 => rfl
  | fuel + 1 => by
      rw [readRun_succ h fuel]
      exact h2 fuel

theorem readRun_fix {s : ReadState} (h : readStep s = Except.ok (Sum.inr s)) :
    ∀ fuel, readRun fuel s = Except.ok none
  | 0 => rfl
  | fuel + 1 => by
      rw [readRun_succ h fuel]
      exact readRun_fix h fuel

/-- Claim C1 counterexample: `AddEdgeWeight(-1, -1, 5)` has both vertex
arguments outside `[0, numVertices)`, yet it does not fail at all — the
short-circuited guard `vertex1 != vertex2 && ...` makes it a silent no-op, so
no `VertexOutOfRange` error (and no failure of any kind) is produced. -/
theorem C1_counterexample : AddEdgeWeight gW (-1) (-1) 5 = Except.ok gW := rfl

/-- Claim C1 (amended): on a reachable graph, an out-of-range vertex argument
to `Degree`, `GetEdges`, `IsConnected` or `Weight` crashes with the Go runtime
index-out-of-range panic (no clamping or wrapping, but also no
`VertexOutOfRange` error value — the code has no error values at all);
`AddEdgeWeight` with an out-of-range vertex and a distinct second vertex
likewise panics, while `AddEdgeWeight` with both arguments equal and
out-of-range is a silent no-op. -/
theorem C1_theorem (g : Undirected) (i : Int) (hg : ReachableIn g)
    (hout : ¬ (0 ≤ i ∧ i < Order g)) :
    Degree g i = Except.error RuntimeErr.indexOutOfRange ∧
    GetEdges g i = Except.error RuntimeErr.indexOutOfRange ∧
    (∀ j : Int, IsConnected g i j = Except.error RuntimeErr.indexOutOfRange ∧
      IsConnected g j i = Except.error RuntimeErr.indexOutOfRange) ∧
    (∀ j : Int, Weight g i j = Except.error RuntimeErr.indexOutOfRange ∧
      Weight g j i = Except.error RuntimeErr.indexOutOfRange) ∧
    (∀ (j : Int) (w : Rat), i ≠ j →
      AddEdgeWeight g i j w = Except.error RuntimeErr.indexOutOfRange ∧
      AddEdgeWeight g j i w = Except.error RuntimeErr.indexOutOfRange) ∧
    (∀ w : Rat, AddEdgeWeight g i i w = Except.ok g) := by
  obtain ⟨n, hInv⟩ := reachable_inv hg
  rw [Order, hInv.hn] at hout
  have herr : ∀ {α : Type} (xs : List α), xs.length = n.toNat →
      sliceGet xs i = Except.error RuntimeErr.indexOutOfRange := by
    intro α xs hlen
    by_cases h0 : 0 ≤ i
    · exact sliceGet_err_oob h0 (by omega)
    · exact sliceGet_err_neg (by omega)
  have hrowread : ∀ j : Int,
      (sliceGet g.adjacencies j).bind (fun row => sliceGet row i) =
        Except.error RuntimeErr.indexOutOfRange := by
    intro j
    by_cases hj : 0 ≤ j ∧ j < n
    · have hNj : j.toNat < g.adjacencies.length := by rw [hInv.hadjLen]; omega
      have hrow : g.adjacencies[j.toNat]? = some g.adjacencies[j.toNat] :=
        List.getElem?_eq_getElem hNj
      rw [sliceGet_ok_of hj.1 hrow, ok_bind,
        herr _ (hInv.hadjRow _ (List.getElem_mem hNj))]
    · have hjerr : sliceGet g.adjacencies j = Except.error RuntimeErr.indexOutOfRange := by
        by_cases hj0 : 0 ≤ j
        · exact sliceGet_err_oob hj0 (by rw [hInv.hadjLen]; omega)
        · exact sliceGet_err_neg (by omega)
      rw [hjerr, error_bind]
  have hfwd : ∀ j : Int, IsConnected g i j = Except.error RuntimeErr.indexOutOfRange := by
    intro j
    rw [IsConnected]
    by_cases hij : i > j
    · rw [if_pos hij, herr g.adjacencies hInv.hadjLen, error_bind]
    · rw [if_neg hij]
      exact hrowread j
  refine ⟨herr g.degrees hInv.hdegLen, herr g.edges hInv.hedgLen,
    fun j => ⟨hfwd j, (isConnected_symm g j i).trans (hfwd j)⟩, ?_, ?_, ?_⟩
  · intro j
    constructor
    · rw [Weight, herr g.adjacencies hInv.hadjLen, error_bind]
    · rw [Weight]
      by_cases hj : 0 ≤ j ∧ j < n
      · have hNj : j.toNat < g.adjacencies.length := by rw [hInv.hadjLen]; omega
        have hrow : g.adjacencies[j.toNat]? = some g.adjacencies[j.toNat] :=
          List.getElem?_eq_getElem hNj
        rw [sliceGet_ok_of hj.1 hrow, ok_bind,
          herr _ (hInv.hadjRow _ (List.getElem_mem hNj)), error_bind]
      · have hjerr : sliceGet g.adjacencies j =
            Except.error RuntimeErr.indexOutOfRange := by
          by_cases hj0 : 0 ≤ j
          · exact sliceGet_err_oob hj0 (by rw [hInv.hadjLen]; omega)
          · exact sliceGet_err_neg (by omega)
        rw [hjerr, error_bind]
  · intro j w hij
    constructor
    · rw [AddEdgeWeight, if_neg hij, hfwd j, error_bind]
    · rw [AddEdgeWeight, if_neg (Ne.symm hij), (isConnected_symm g j i).trans (hfwd j),
        error_bind]
  · intro w
    rw [AddEdgeWeight, if_pos rfl]

/-- Claim C1 witness: the graph built by `NewGraph 2; AddEdge 0 1` is
reachable, `-1` is out of range for it, and `Degree(-1)` indeed panics. -/
theorem C1_witness :
    ReachableIn gW ∧ ¬ (0 ≤ (-1 : Int) ∧ (-1 : Int) < Order gW) ∧
      Degree gW (-1) = Except.error RuntimeErr.indexOutOfRange :=
  ⟨gW_reachable, by decide, (C1_theorem gW (-1) gW_reachable (by decide)).1⟩

/-- Claim C2 counterexample: on `NewGraph 2`, where edge `{0, 1}` was never
added, `Weight(0, 1)` returns the plain numeric constant `0` — not a tagged
"no edge" optional/Result.  (`Except.ok` here is the model's panic channel:
the Go function returns the bare `float64` value `0`.) -/
theorem C2_counterexample :
    (NewGraph 2).bind (fun g => Weight g 0 1) = Except.ok 0 := rfl

/-- Claim C2 (amended): on a reachable graph with in-range vertices,
`Weight(u, v)` returns the numeric constant `0` when no edge is present
(indistinguishable from a legitimate zero weight), and the stored weight when
the edge is present. -/
theorem C2_theorem (g : Undirected) (u v : Int) (hg : ReachableIn g)
    (hu0 : 0 ≤ u) (hun : u < Order g) (hv0 : 0 ≤ v) (hvn : v < Order g) :
    (IsConnected g u v = Except.ok false → Weight g u v = Except.ok 0) ∧
    (IsConnected g u v = Except.ok true →
      Weight g u v = Except.ok (wtCell g u.toNat v.toNat)) := by
  obtain ⟨n, hInv⟩ := reachable_inv hg
  rw [Order, hInv.hn] at hun hvn
  have hic := isConnected_eq hInv hu0 hun hv0 hvn
  have hw := weight_eq hInv hu0 hun hv0 hvn
  constructor
  · intro hfalse
    rw [hic] at hfalse
    injection hfalse with hfalse
    rw [hw, hfalse, if_neg (by simp)]
  · intro htrue
    rw [hic] at htrue
    injection htrue with htrue
    rw [hw, htrue, if_pos rfl]

/-- Claim C2 witness: on the reachable two-vertex graph with edge `{0, 1}`,
both branches of the amended claim are discharged at `u = 0`, `v = 1`. -/
theorem C2_witness :
    ReachableIn gW ∧
    ((IsConnected gW 0 1 = Except.ok false → Weight gW 0 1 = Except.ok 0) ∧
     (IsConnected gW 0 1 = Except.ok true →
       Weight gW 0 1 = Except.ok (wtCell gW (0 : Int).toNat (1 : Int).toNat))) :=
  ⟨gW_reachable, C2_theorem gW 0 1 gW_reachable (by decide) (by decide) (by decide)
    (by decide)⟩

/-- Claim C3 (confirmed): re-adding an existing edge, in either argument order
and with any weight, is a complete no-op: the resulting graph state is
identical, so `Size`, `Degree`, `GetEdges` and all stored weights are
unchanged (first write wins). -/
theorem C3_theorem (g : Undirected) (u v : Int) (w : Rat) (huv : u ≠ v)
    (hconn : IsConnected g u v = Except.ok true) :
    AddEdgeWeight g u v w = Except.ok g ∧ AddEdgeWeight g v u w = Except.ok g ∧
    AddEdge g u v = Except.ok g ∧ AddEdge g v u = Except.ok g := by
  have hconn2 : IsConnected g v u = Except.ok true :=
    (isConnected_symm g v u).trans hconn
  have h1 : ∀ w2 : Rat, AddEdgeWeight g u v w2 = Except.ok g := by
    intro w2
    simp only [AddEdgeWeight, if_neg huv, hconn, ok_bind]
    rfl
  have h2 : ∀ w2 : Rat, AddEdgeWeight g v u w2 = Except.ok g := by
    intro w2
    simp only [AddEdgeWeight, if_neg (Ne.symm huv), hconn2, ok_bind]
    rfl
  exact ⟨h1 w, h2 w, h1 1, h2 1⟩

/-- Claim C3 witness: on the graph with edge `{0, 1}` present, re-adding the
edge with weight 7 is a no-op. -/
theorem C3_witness :
    (0 : Int) ≠ 1 ∧ IsConnected gW 0 1 = Except.ok true ∧
      AddEdgeWeight gW 0 1 7 = Except.ok gW :=
  ⟨by decide, by rfl, (C3_theorem gW 0 1 7 (by decide) (by rfl)).1⟩

/-- Claim C4 (confirmed): on every reachable graph state and in-range pair,
`IsConnected` and `Weight` are symmetric in their two vertex arguments. -/
theorem C4_theorem (g : Undirected) (u v : Int) (hg : ReachableIn g)
    (hu0 : 0 ≤ u) (hun : u < Order g) (hv0 : 0 ≤ v) (hvn : v < Order g) :
    IsConnected g u v = IsConnected g v u ∧ Weight g u v = Weight g v u := by
  obtain ⟨n, hInv⟩ := reachable_inv hg
  rw [Order, hInv.hn] at hun hvn
  refine ⟨isConnected_symm g u v, ?_⟩
  rw [weight_eq hInv hu0 hun hv0 hvn, weight_eq hInv hv0 hvn hu0 hun]
  rw [show Adj g u.toNat v.toNat = Adj g v.toNat u.toNat by
    rw [Adj, Adj, Nat.max_comm, Nat.min_comm]]
  rw [hInv.hwsym u.toNat v.toNat (by omega) (by omega)]

/-- Claim C4 witness: symmetry holds at the reachable graph with edge
`{0, 1}` and the pair `(0, 1)`. -/
theorem C4_witness :
    ReachableIn gW ∧ (IsConnected gW 0 1 = IsConnected gW 1 0 ∧
      Weight gW 0 1 = Weight gW 1 0) :=
  ⟨gW_reachable, C4_theorem gW 0 1 gW_reachable (by decide) (by decide) (by decide)
    (by decide)⟩

/-- Claim C5 (confirmed): after any sequence of in-range insertions and
Clears starting from `NewGraph`, no call panics, twice the edge counter
equals the sum of `Degree(v)` over all vertices in `[0, Order())`, and
`Size()` equals the `numEdges` counter. -/
theorem C5_theorem (n : Int) (ops : List Op) (h0 : 0 ≤ n)
    (hops : ops.all (opInRange n) = true) :
    ∃ g, (NewGraph n).bind (fun g0 => applyOps g0 ops) = Except.ok g ∧
      degreeSum g = Except.ok (2 * Size g) ∧ Size g = g.numEdges := by
  obtain ⟨g0, hg0, hI0⟩ := newGraph_inv h0
  obtain ⟨g1, h1, hI1⟩ := applyOps_inv ops hI0 hops
  refine ⟨g1, by rw [hg0, ok_bind, h1], ?_, rfl⟩
  rw [degreeSum, degreeSum_foldl (List.range (Order g1).toNat) 0 ?hall]
  case hall =>
    intro k hk
    rw [List.mem_range, Order, hI1.hn] at hk
    have hcast : ((k : Int)).toNat = k := by omega
    have := degree_eq hI1 (show (0 : Int) ≤ (k : Int) by omega)
      (show (k : Int) < n by omega)
    rw [hcast] at this
    exact this
  rw [show (Order g1).toNat = g1.degrees.length by rw [Order, hI1.hn, hI1.hdegLen],
    map_getD_range_sum g1.degrees, zero_add, Size, ← hI1.hsum]

/-- Claim C5 witness: the degree-sum law holds for `NewGraph 2` followed by
`AddEdge 0 1`. -/
theorem C5_witness :
    (0 : Int) ≤ 2 ∧ [Op.addEdge 0 1].all (opInRange 2) = true ∧
    ∃ g, (NewGraph 2).bind (fun g0 => applyOps g0 [Op.addEdge 0 1]) = Except.ok g ∧
      degreeSum g = Except.ok (2 * Size g) ∧ Size g = g.numEdges :=
  ⟨by decide, by decide, C5_theorem 2 [Op.addEdge 0 1] (by decide) (by decide)⟩

/-- Claim C6 (confirmed): a self-loop insertion `AddEdgeWeight(v, v, w)` (and
`AddEdge(v, v)`) returns the graph completely unchanged, for every vertex
argument and every graph state. -/
theorem C6_theorem (g : Undirected) (v : Int) (w : Rat) :
    AddEdgeWeight g v v w = Except.ok g ∧ AddEdge g v v = Except.ok g := by
  constructor
  · rw [AddEdgeWeight, if_pos rfl]
  · rw [AddEdge, AddEdgeWeight, if_pos rfl]

/-- Claim C7 (confirmed): `Clear()` resets the graph — `Size` becomes 0,
every in-range `Degree` is 0, every in-range adjacency list is empty, every
in-range pair is disconnected, and `Order()` is unchanged. -/
theorem C7_theorem (g : Undirected) (h0 : 0 ≤ g.numVertices) :
    ∃ g1, Clear g = Except.ok g1 ∧ Order g1 = Order g ∧ Size g1 = 0 ∧
      (∀ v : Int, 0 ≤ v → v < Order g →
        Degree g1 v = Except.ok 0 ∧ GetEdges g1 v = Except.ok []) ∧
      (∀ u v : Int, 0 ≤ u → u < Order g → 0 ≤ v → v < Order g →
        IsConnected g1 u v = Except.ok false) := by
  obtain ⟨g1, hc, hI⟩ := clear_inv h0
  have hg1 : g1 =
      { adjacencies :=
          List.replicate g.numVertices.toNat (List.replicate g.numVertices.toNat false)
      , edges := List.replicate g.numVertices.toNat []
      , weights :=
          List.replicate g.numVertices.toNat (List.replicate g.numVertices.toNat 0)
      , degrees := List.replicate g.numVertices.toNat 0
      , numVertices := g.numVertices
      , numEdges := 0 } := by
    rw [Clear, if_pos h0] at hc
    injection hc with hc
    exact hc.symm
  refine ⟨g1, hc, by rw [Order, Order, hI.hn], by rw [Size, hg1], ?_, ?_⟩
  · intro v hv0 hvn
    rw [Order] at hvn
    constructor
    · rw [Degree, hg1]
      exact sliceGet_ok_of hv0 (getElem?_replicate_lt (by omega))
    · rw [GetEdges, hg1]
      exact sliceGet_ok_of hv0 (getElem?_replicate_lt (by omega))
  · intro u v hu0 hun hv0 hvn
    rw [Order] at hun hvn
    rw [isConnected_eq hI hu0 (by omega) hv0 (by omega)]
    rw [show Adj g1 u.toNat v.toNat = false by
      rw [hg1]
      exact cellD_replicate false g.numVertices.toNat g.numVertices.toNat
        (max u.toNat v.toNat) (min u.toNat v.toNat)]

/-- Claim C7 witness: clearing the two-vertex graph with one edge resets
size, degrees, lists and connectivity while preserving the order. -/
theorem C7_witness :
    (0 : Int) ≤ gW.numVertices ∧
    (∃ g1, Clear gW = Except.ok g1 ∧ Order g1 = Order gW ∧ Size g1 = 0 ∧
      (∀ v : Int, 0 ≤ v → v < Order gW →
        Degree g1 v = Except.ok 0 ∧ GetEdges g1 v = Except.ok []) ∧
      (∀ u v : Int, 0 ≤ u → u < Order gW → 0 ≤ v → v < Order gW →
        IsConnected g1 u v = Except.ok false)) :=
  ⟨by decide, C7_theorem gW (by decide)⟩

theorem clear_err {g : Undirected} (h : g.numVertices < 0) :
    Clear g = Except.error RuntimeErr.negMakeLen := by
  rw [Clear, if_neg (by omega)]

/-- Claim C8 counterexample: `NewGraph(-1)` does not return an
`InvalidVertexCount` error value — it crashes with the Go runtime panic of
`make` called with a negative length (the model's error type, built from the
code, has no `InvalidVertexCount` at all: the Go constructor returns a bare
pointer and has no error channel). -/
theorem C8_counterexample : NewGraph (-1) = Except.error RuntimeErr.negMakeLen := rfl

/-- Claim C8 (amended): construction with a negative vertex count crashes
with the runtime `make`-panic instead of returning an explicit
`InvalidVertexCount` error; for every non-negative count it yields a graph
with the requested order, no edges, all degrees zero and all pairs
disconnected. -/
theorem C8_theorem (n : Int) :
    (n < 0 → NewGraph n = Except.error RuntimeErr.negMakeLen) ∧
    (0 ≤ n → ∃ g, NewGraph n = Except.ok g ∧ Order g = n ∧ Size g = 0 ∧
      (∀ u v : Int, 0 ≤ u → u < n → 0 ≤ v → v < n →
        IsConnected g u v = Except.ok false ∧ Degree g u = Except.ok 0)) := by
  constructor
  · intro hneg
    rw [NewGraph]
    exact clear_err hneg
  · intro h0
    obtain ⟨g1, hg, hI⟩ := newGraph_inv h0
    have hg1 : g1 =
        { adjacencies := List.replicate n.toNat (List.replicate n.toNat false)
        , edges := List.replicate n.toNat []
        , weights := List.replicate n.toNat (List.replicate n.toNat 0)
        , degrees := List.replicate n.toNat 0
        , numVertices := n
        , numEdges := 0 } := by
      rw [NewGraph, Clear, if_pos h0] at hg
      injection hg with hg
      exact hg.symm
    refine ⟨g1, hg, by rw [Order, hI.hn], by rw [Size, hg1], ?_⟩
    intro u v hu0 hun hv0 hvn
    constructor
    · rw [isConnected_eq hI hu0 hun hv0 hvn]
      rw [show Adj g1 u.toNat v.toNat = false by
        rw [hg1]
        exact cellD_replicate false n.toNat n.toNat
          (max u.toNat v.toNat) (min u.toNat v.toNat)]
    · rw [Degree, hg1]
      exact sliceGet_ok_of hu0 (getElem?_replicate_lt (by omega))

/-- Claim C8 witness: `NewGraph(-1)` panics; `NewGraph 2` yields the empty
two-vertex graph. -/
theorem C8_witness :
    ((-1 : Int) < 0 ∧ NewGraph (-1) = Except.error RuntimeErr.negMakeLen) ∧
    ((0 : Int) ≤ 2 ∧ ∃ g, NewGraph 2 = Except.ok g ∧ Order g = 2 ∧ Size g = 0 ∧
      (∀ u v : Int, 0 ≤ u → u < 2 → 0 ≤ v → v < 2 →
        IsConnected g u v = Except.ok false ∧ Degree g u = Except.ok 0)) :=
  ⟨⟨by decide, (C8_theorem (-1)).1 (by decide)⟩,
   ⟨by decide, (C8_theorem 2).2 (by decide)⟩⟩

/-- Claim C9 (code bug): on the finite token stream `2 0 1` — a vertex count
followed by one well-formed edge pair and then end of input — the
`readFromFile` loop never terminates: after the stream is exhausted,
`Scan` keeps yielding the empty token, `Atoi("")` returns the value `0`
(with an error that is merely printed), the guard `vertex1 >= 0` therefore
stays true, and the loop re-adds the self-loop `(0, 0)` forever.  For every
amount of fuel the run is still in the loop (`Except.ok none`): it neither
terminates with a graph nor panics, contradicting the claim that the reader
stops once the token stream is exhausted. -/
theorem C9_theorem : ∀ fuel : Nat,
    readFromFileFuel ["2", "0", "1"] fuel = Except.ok none := by
  have hstep0 : readStep sReadInit = Except.ok (Sum.inr sRead1) := rfl
  have hstep1 : readStep sRead1 = Except.ok (Sum.inr sStuck) := rfl
  have hstep2 : readStep sStuck = Except.ok (Sum.inr sStuck) := rfl
  intro fuel
  show readRun fuel sReadInit = Except.ok none
  exact readRun_none_step hstep0 (readRun_none_step hstep1 (readRun_fix hstep2)) fuel

/-- Claim C10 (confirmed): in every state reachable by in-range calls, the
adjacency lists agree with the adjacency matrix: `u` appears in
`GetEdges(v)` exactly when `IsConnected(u, v)` holds, and at most once. -/
theorem C10_theorem (n : Int) (ops : List Op) (h0 : 0 ≤ n)
    (hops : ops.all (opInRange n) = true) :
    ∃ g, (NewGraph n).bind (fun g0 => applyOps g0 ops) = Except.ok g ∧
      ∀ u v : Int, 0 ≤ u → u < n → 0 ≤ v → v < n →
        ∃ L : List Int, GetEdges g v = Except.ok L ∧
          (u ∈ L ↔ IsConnected g u v = Except.ok true) ∧ L.count u ≤ 1 := by
  obtain ⟨g0, hg0, hI0⟩ := newGraph_inv h0
  obtain ⟨g1, h1, hI1⟩ := applyOps_inv ops hI0 hops
  refine ⟨g1, by rw [hg0, ok_bind, h1], ?_⟩
  intro u v hu0 hun hv0 hvn
  refine ⟨edgeList g1 v.toNat, getEdges_eq hI1 hv0 hvn, ?_, ?_⟩
  · have hcast : ((u.toNat : Nat) : Int) = u := by omega
    have hm := hI1.hmem v.toNat u.toNat (by omega) (by omega)
    rw [hcast] at hm
    rw [isConnected_eq hI1 hu0 hun hv0 hvn, hm,
      show Adj g1 v.toNat u.toNat = Adj g1 u.toNat v.toNat by
        rw [Adj, Adj, Nat.max_comm, Nat.min_comm]]
    constructor
    · intro hb
      rw [hb]
    · exact fun hb => Except.ok.inj hb
  · exact List.nodup_iff_count_le_one.mp (hI1.hnodup v.toNat) u

/-- Claim C10 witness: matrix/list agreement holds after `NewGraph 2` and
`AddEdge 0 1`. -/
theorem C10_witness :
    (0 : Int) ≤ 2 ∧ [Op.addEdge 0 1].all (opInRange 2) = true ∧
    ∃ g, (NewGraph 2).bind (fun g0 => applyOps g0 [Op.addEdge 0 1]) = Except.ok g ∧
      ∀ u v : Int, 0 ≤ u → u < 2 → 0 ≤ v → v < 2 →
        ∃ L : List Int, GetEdges g v = Except.ok L ∧
          (u ∈ L ↔ IsConnected g u v = Except.ok true) ∧ L.count u ≤ 1 :=
  ⟨by decide, by decide, C10_theorem 2 [Op.addEdge 0 1] (by decide) (by decide)⟩

end Graphs
